import Mathlib

/-!
Verification of the profile ingestion and source-attribution engine of the
pyroscope-vscode-profiler extension.  The definitions below are a shallow
embedding of the TypeScript sources: JavaScript `Map`s become association
lists (insertion-ordered, updated in place), JavaScript numbers become `ℚ`
(sample values are integral counts, embedded as `Nat` and cast where the
code adds them), and fallible operations return `Option`/`Except`.
-/

namespace Pyroscope

/-! ### Generic association-list operations (embedding of JS `Map`) -/

def assocLookup {α β : Type} [DecidableEq α] (m : List (α × β)) (k : α) : Option β :=
  match m with
  | [] => none
  | (k0, v0) :: rest => if k0 = k then some v0 else assocLookup rest k

/-- `map.get(k)` + create-if-absent + in-place mutation: an existing entry is
updated in place, a missing key is appended (JS `Map` insertion order). -/
def updateAssoc {α β : Type} [DecidableEq α] (m : List (α × β)) (k : α) (dflt : β)
    (f : β → β) : List (α × β) :=
  match m with
  | [] => [(k, f dflt)]
  | (k0, v0) :: rest =>
    if k0 = k then (k0, f v0) :: rest else (k0, v0) :: updateAssoc rest k dflt f

/-! ### Data model (the `pprofParser.ts` interfaces, staged as the second
document of `src/commands/toggleHints.ts`; the fields `sourceMapper.ts` never
reads — record ids, declared start lines, the string table and the top-level
nanosecond counters — are omitted) -/

structure SampleType where
  type : String
  unit : String
deriving Repr, DecidableEq

structure Sample where
  locationIds : List Nat
  values : List Nat
deriving Repr, DecidableEq

structure LocationLine where
  functionId : Nat
  line : Nat
deriving Repr, DecidableEq

structure Location where
  lines : List LocationLine
deriving Repr, DecidableEq

structure Func where
  name : String
  systemName : String
  filename : String
deriving Repr, DecidableEq

structure ParsedProfile where
  sampleTypes : List SampleType
  functions : List (Nat × Func)
  locations : List (Nat × Location)
  samples : List Sample
deriving Repr

/-- `sample.values[i]`, with out-of-range access reading as the (falsy) 0. -/
def valueAt (s : Sample) (i : Nat) : Nat := s.values.getD i 0

/-! ### Sample-type index lookup -/

def charsPrefixOf : List Char → List Char → Bool
  | [], _ => true
  | _ :: _, [] => false
  | a :: as, b :: bs => a = b && charsPrefixOf as bs

def charsContains (needle : List Char) : List Char → Bool
  | [] => charsPrefixOf needle []
  | c :: rest => charsPrefixOf needle (c :: rest) || charsContains needle rest

/-- Case-insensitive substring test (`hay.toLowerCase().includes(needle.toLowerCase())`). -/
def strContainsCI (hay needle : String) : Bool :=
  charsContains (needle.toList.map Char.toLower) (hay.toList.map Char.toLower)

/-- `getSampleTypeIndex` from `pprofParser.ts` (staged as the second document
of `src/commands/toggleHints.ts`):
`profile.sampleTypes.findIndex((st) => st.type.toLowerCase().includes(typeName.toLowerCase()))`,
with `findIndex`'s -1-on-miss embedded as `none`. -/
def getSampleTypeIndex (profile : ParsedProfile) (name : String) : Option Nat :=
  profile.sampleTypes.findIdx? fun st => strContainsCI st.type name

def findSampleTypeIndex (profile : ParsedProfile) : List String → Option Nat
  | [] => none
  | n :: rest =>
    match getSampleTypeIndex profile n with
    | some i => some i
    | none => findSampleTypeIndex profile rest

structure SampleTypeIndices where
  cpuIndex : Option Nat
  allocSpaceIndex : Option Nat
  allocObjectsIndex : Option Nat
  inuseSpaceIndex : Option Nat

def findIndices (profile : ParsedProfile) : SampleTypeIndices :=
  { cpuIndex := findSampleTypeIndex profile ["cpu", "samples", "sample"]
    allocSpaceIndex := findSampleTypeIndex profile ["alloc_space", "allocated", "bytes"]
    allocObjectsIndex := findSampleTypeIndex profile ["alloc_objects", "allocations", "count"]
    inuseSpaceIndex := findSampleTypeIndex profile ["inuse_space", "inuse"] }

/-! ### Stack reconstruction (`getStackTrace` in `src/parser/sourceMapper.ts`) -/

structure StackFrame where
  filename : String
  line : Nat
  functionName : String
  locationIndex : Nat
deriving Repr, DecidableEq

/-- The (function, line) expansions of one location, each tagged with the
index of the owning location in the sample's location list. -/
def framesOfLocation (profile : ParsedProfile) (locationId : Nat)
    (locationIndex : Nat) : List StackFrame :=
  match assocLookup profile.locations locationId with
  | none => []
  | some location =>
    location.lines.filterMap fun l =>
      match assocLookup profile.functions l.functionId with
      | none => none
      | some func =>
        some { filename := func.filename, line := l.line,
               functionName := if func.name = "" then func.systemName else func.name,
               locationIndex := locationIndex }

def getStackTrace (sample : Sample) (profile : ParsedProfile) : List StackFrame :=
  sample.locationIds.enum.flatMap fun p => framesOfLocation profile p.2 p.1

/-! ### Line metrics and accumulation (`mapSamplesToSource`) -/

structure LineMetrics where
  filePath : String
  line : Nat
  cpuPercent : ℚ
  cpuSamples : ℚ
  memoryBytes : ℚ
  memoryPercent : ℚ
  allocations : ℚ
  selfCpuPercent : ℚ
  selfMemoryPercent : ℚ
deriving Repr, DecidableEq

abbrev FileMetrics := List (Nat × LineMetrics)
abbrev ProfileMetrics := List (String × FileMetrics)

def newLineMetrics (filePath : String) (line : Nat) : LineMetrics :=
  { filePath := filePath, line := line, cpuPercent := 0, cpuSamples := 0,
    memoryBytes := 0, memoryPercent := 0, allocations := 0,
    selfCpuPercent := 0, selfMemoryPercent := 0 }

def accumulateCpu (idx : SampleTypeIndices) (s : Sample) (isSelfFrame : Bool)
    (lm : LineMetrics) : LineMetrics :=
  match idx.cpuIndex with
  | some i =>
    let cpuValue := valueAt s i
    if cpuValue ≠ 0 then
      { lm with cpuSamples := lm.cpuSamples + (cpuValue : ℚ),
                selfCpuPercent :=
                  if isSelfFrame then lm.selfCpuPercent + (cpuValue : ℚ)
                  else lm.selfCpuPercent }
    else lm
  | none => lm

def accumulateInuse (idx : SampleTypeIndices) (s : Sample) (isSelfFrame : Bool)
    (lm : LineMetrics) : LineMetrics :=
  match idx.inuseSpaceIndex with
  | some i =>
    let memValue := valueAt s i
    if memValue ≠ 0 then
      { lm with memoryBytes := lm.memoryBytes + (memValue : ℚ),
                selfMemoryPercent :=
                  if isSelfFrame then lm.selfMemoryPercent + (memValue : ℚ)
                  else lm.selfMemoryPercent }
    else lm
  | none => lm

def accumulateMemory (idx : SampleTypeIndices) (s : Sample) (isSelfFrame : Bool)
    (lm : LineMetrics) : LineMetrics :=
  match idx.allocSpaceIndex with
  | some i =>
    let memValue := valueAt s i
    if memValue ≠ 0 then
      { lm with memoryBytes := lm.memoryBytes + (memValue : ℚ),
                selfMemoryPercent :=
                  if isSelfFrame then lm.selfMemoryPercent + (memValue : ℚ)
                  else lm.selfMemoryPercent }
    else accumulateInuse idx s isSelfFrame lm
  | none => accumulateInuse idx s isSelfFrame lm

def accumulateAllocations (idx : SampleTypeIndices) (s : Sample)
    (lm : LineMetrics) : LineMetrics :=
  match idx.allocObjectsIndex with
  | some i =>
    let v := valueAt s i
    if v ≠ 0 then { lm with allocations := lm.allocations + (v : ℚ) } else lm
  | none => lm

/-- The accumulation block of the per-frame loop body. -/
def accumulateMetrics (idx : SampleTypeIndices) (s : Sample) (isSelfFrame : Bool)
    (lm : LineMetrics) : LineMetrics :=
  accumulateAllocations idx s (accumulateMemory idx s isSelfFrame (accumulateCpu idx s isSelfFrame lm))

/-- One iteration of `stack.forEach((frame) => ...)` in `mapSamplesToSource`. -/
def processFrame (resolve : String → Option String) (idx : SampleTypeIndices)
    (s : Sample) (m : ProfileMetrics) (frame : StackFrame) : ProfileMetrics :=
  if frame.filename = "" ∨ frame.line = 0 then m
  else
    match resolve frame.filename with
    | none => m
    | some resolvedPath =>
      updateAssoc m resolvedPath []
        (fun fileMetrics =>
          updateAssoc fileMetrics frame.line (newLineMetrics resolvedPath frame.line)
            (accumulateMetrics idx s (frame.locationIndex == 0)))

def processSample (profile : ParsedProfile) (resolve : String → Option String)
    (idx : SampleTypeIndices) (m : ProfileMetrics) (sample : Sample) : ProfileMetrics :=
  (getStackTrace sample profile).foldl (processFrame resolve idx sample) m

def totalCpuOf (idx : SampleTypeIndices) (samples : List Sample) : Nat :=
  samples.foldl
    (fun totalCpu s =>
      match idx.cpuIndex with
      | some i => if valueAt s i ≠ 0 then totalCpu + valueAt s i else totalCpu
      | none => totalCpu)
    0

def totalMemoryOf (idx : SampleTypeIndices) (samples : List Sample) : Nat :=
  samples.foldl
    (fun totalMemory s =>
      match idx.allocSpaceIndex with
      | some i =>
        if valueAt s i ≠ 0 then totalMemory + valueAt s i
        else
          match idx.inuseSpaceIndex with
          | some j => if valueAt s j ≠ 0 then totalMemory + valueAt s j else totalMemory
          | none => totalMemory
      | none =>
        match idx.inuseSpaceIndex with
        | some j => if valueAt s j ≠ 0 then totalMemory + valueAt s j else totalMemory
        | none => totalMemory)
    0

/-- The percentage-normalization pass at the end of `mapSamplesToSource`. -/
def normalizeLineMetrics (totalCpu totalMemory : Nat) (lm : LineMetrics) : LineMetrics :=
  let lm1 :=
    if totalCpu > 0 then
      { lm with cpuPercent := lm.cpuSamples / (totalCpu : ℚ) * 100,
                selfCpuPercent := lm.selfCpuPercent / (totalCpu : ℚ) * 100 }
    else lm
  if totalMemory > 0 then
    { lm1 with memoryPercent := lm1.memoryBytes / (totalMemory : ℚ) * 100,
               selfMemoryPercent := lm1.selfMemoryPercent / (totalMemory : ℚ) * 100 }
  else lm1

def normalizeMetrics (totalCpu totalMemory : Nat) (m : ProfileMetrics) : ProfileMetrics :=
  m.map fun e => (e.1, e.2.map fun le => (le.1, normalizeLineMetrics totalCpu totalMemory le.2))

/-- `mapSamplesToSource` from `src/parser/sourceMapper.ts`, with the path
resolver abstracted to a pure resolution function.  (The periodic event-loop
yield affects scheduling only, not the computed value.) -/
def mapSamplesToSource (profile : ParsedProfile) (resolve : String → Option String) :
    ProfileMetrics :=
  normalizeMetrics (totalCpuOf (findIndices profile) profile.samples)
    (totalMemoryOf (findIndices profile) profile.samples)
    (profile.samples.foldl (processSample profile resolve (findIndices profile)) [])

/-! ### Lookup helpers and basic association-list lemmas -/

def lookupLine (m : ProfileMetrics) (p : String) (l : Nat) : Option LineMetrics :=
  match assocLookup m p with
  | none => none
  | some fm => assocLookup fm l

/-- The line-metrics record the per-frame loop would read or create for
`(p, l)`: the stored entry if present, a fresh zeroed record otherwise. -/
def lineAt (m : ProfileMetrics) (p : String) (l : Nat) : LineMetrics :=
  (lookupLine m p l).getD (newLineMetrics p l)

theorem assocLookup_updateAssoc_self {α β : Type} [DecidableEq α]
    (m : List (α × β)) (k : α) (d : β) (f : β → β) :
    assocLookup (updateAssoc m k d f) k = some (f ((assocLookup m k).getD d)) := by
  induction m with
  | nil => simp [updateAssoc, assocLookup]
  | cons kv rest ih =>
    obtain ⟨k0, v0⟩ := kv
    by_cases h : k0 = k <;> simp [updateAssoc, assocLookup, h, ih]

theorem assocLookup_updateAssoc_ne {α β : Type} [DecidableEq α]
    (m : List (α × β)) {k k' : α} (d : β) (f : β → β) (h : k' ≠ k) :
    assocLookup (updateAssoc m k d f) k' = assocLookup m k' := by
  have hk : ¬k = k' := fun h' => h h'.symm
  induction m with
  | nil => simp [updateAssoc, assocLookup, hk]
  | cons kv rest ih =>
    obtain ⟨k0, v0⟩ := kv
    by_cases h0 : k0 = k <;> by_cases h1 : k0 = k' <;>
      simp_all [updateAssoc, assocLookup]

theorem assocLookup_mapValues {α β γ : Type} [DecidableEq α]
    (m : List (α × β)) (g : β → γ) (k : α) :
    assocLookup (m.map fun e => (e.1, g e.2)) k = (assocLookup m k).map g := by
  induction m with
  | nil => simp [assocLookup]
  | cons kv rest ih =>
    obtain ⟨k0, v0⟩ := kv
    by_cases h : k0 = k <;> simp [assocLookup, h, ih]

theorem lookupLine_normalizeMetrics (tc tm : Nat) (m : ProfileMetrics)
    (p : String) (l : Nat) :
    lookupLine (normalizeMetrics tc tm m) p l
      = (lookupLine m p l).map (normalizeLineMetrics tc tm) := by
  unfold lookupLine normalizeMetrics
  rw [assocLookup_mapValues]
  cases assocLookup m p with
  | none => simp
  | some fm => simp [assocLookup_mapValues]

/-! ### Per-frame deltas: extensional characterization of the accumulation -/

/-- The per-sample CPU-metric value the loop adds (0 when no CPU sample type
was identified or the sample's value is the falsy 0). -/
def cpuValOf (idx : SampleTypeIndices) (s : Sample) : Nat :=
  match idx.cpuIndex with
  | some i => valueAt s i
  | none => 0

def inuseValOf (idx : SampleTypeIndices) (s : Sample) : Nat :=
  match idx.inuseSpaceIndex with
  | some i => valueAt s i
  | none => 0

/-- The per-sample memory-metric value: allocated-space when present and
non-zero, otherwise in-use-space (mirroring the `else if`). -/
def memValOf (idx : SampleTypeIndices) (s : Sample) : Nat :=
  match idx.allocSpaceIndex with
  | some i => if valueAt s i ≠ 0 then valueAt s i else inuseValOf idx s
  | none => inuseValOf idx s

def allocValOf (idx : SampleTypeIndices) (s : Sample) : Nat :=
  match idx.allocObjectsIndex with
  | some i => valueAt s i
  | none => 0

/-- (cumulative cpu, self cpu, cumulative memory, self memory, allocations). -/
abbrev MetricsDelta := ℚ × ℚ × ℚ × ℚ × ℚ

def applyDelta (d : MetricsDelta) (lm : LineMetrics) : LineMetrics :=
  { lm with cpuSamples := lm.cpuSamples + d.1,
            selfCpuPercent := lm.selfCpuPercent + d.2.1,
            memoryBytes := lm.memoryBytes + d.2.2.1,
            selfMemoryPercent := lm.selfMemoryPercent + d.2.2.2.1,
            allocations := lm.allocations + d.2.2.2.2 }

def frameDelta (idx : SampleTypeIndices) (s : Sample) (isSelfFrame : Bool) : MetricsDelta :=
  ((cpuValOf idx s : ℚ), (if isSelfFrame then (cpuValOf idx s : ℚ) else 0),
   (memValOf idx s : ℚ), (if isSelfFrame then (memValOf idx s : ℚ) else 0),
   (allocValOf idx s : ℚ))

theorem applyDelta_zero (lm : LineMetrics) : applyDelta 0 lm = lm := by
  simp [applyDelta]

theorem applyDelta_add (d1 d2 : MetricsDelta) (lm : LineMetrics) :
    applyDelta d2 (applyDelta d1 lm) = applyDelta (d1 + d2) lm := by
  simp [applyDelta, Prod.fst_add, Prod.snd_add, add_assoc]

theorem accumulateCpu_eq (idx : SampleTypeIndices) (s : Sample) (b : Bool)
    (lm : LineMetrics) :
    accumulateCpu idx s b lm
      = { lm with cpuSamples := lm.cpuSamples + (cpuValOf idx s : ℚ),
                  selfCpuPercent :=
                    lm.selfCpuPercent + (if b then (cpuValOf idx s : ℚ) else 0) } := by
  unfold accumulateCpu cpuValOf
  rcases hc : idx.cpuIndex with _ | i
  · cases b <;> simp
  · by_cases hv : valueAt s i = 0
    · cases b <;> simp [hv]
    · cases b <;> simp [hv]

theorem accumulateInuse_eq (idx : SampleTypeIndices) (s : Sample) (b : Bool)
    (lm : LineMetrics) :
    accumulateInuse idx s b lm
      = { lm with memoryBytes := lm.memoryBytes + (inuseValOf idx s : ℚ),
                  selfMemoryPercent :=
                    lm.selfMemoryPercent + (if b then (inuseValOf idx s : ℚ) else 0) } := by
  unfold accumulateInuse inuseValOf
  rcases hc : idx.inuseSpaceIndex with _ | i
  · cases b <;> simp
  · by_cases hv : valueAt s i = 0
    · cases b <;> simp [hv]
    · cases b <;> simp [hv]

theorem accumulateMemory_eq (idx : SampleTypeIndices) (s : Sample) (b : Bool)
    (lm : LineMetrics) :
    accumulateMemory idx s b lm
      = { lm with memoryBytes := lm.memoryBytes + (memValOf idx s : ℚ),
                  selfMemoryPercent :=
                    lm.selfMemoryPercent + (if b then (memValOf idx s : ℚ) else 0) } := by
  unfold accumulateMemory memValOf
  rcases hc : idx.allocSpaceIndex with _ | i
  · rw [accumulateInuse_eq]
  · by_cases hv : valueAt s i = 0
    · simp only [hv, ne_eq, not_true_eq_false, if_false, ite_false]
      rw [accumulateInuse_eq]
    · cases b <;> simp [hv]

theorem accumulateAllocations_eq (idx : SampleTypeIndices) (s : Sample)
    (lm : LineMetrics) :
    accumulateAllocations idx s lm
      = { lm with allocations := lm.allocations + (allocValOf idx s : ℚ) } := by
  unfold accumulateAllocations allocValOf
  rcases hc : idx.allocObjectsIndex with _ | i
  · simp
  · by_cases hv : valueAt s i = 0
    · simp [hv]
    · simp [hv]

theorem accumulateMetrics_eq_applyDelta (idx : SampleTypeIndices) (s : Sample)
    (b : Bool) (lm : LineMetrics) :
    accumulateMetrics idx s b lm = applyDelta (frameDelta idx s b) lm := by
  simp [accumulateMetrics, accumulateCpu_eq, accumulateMemory_eq,
    accumulateAllocations_eq, applyDelta, frameDelta]

/-! ### Characterizing the per-frame and per-sample folds -/

/-- Does this frame contribute to the `(p, l)` entry?  (Non-empty filename,
non-zero line, resolution succeeds to `p`, and the frame's line is `l`.) -/
def frameHits (resolve : String → Option String) (frame : StackFrame)
    (p : String) (l : Nat) : Prop :=
  frame.filename ≠ "" ∧ frame.line ≠ 0 ∧ resolve frame.filename = some p ∧ frame.line = l

instance (resolve : String → Option String) (frame : StackFrame) (p : String)
    (l : Nat) : Decidable (frameHits resolve frame p l) := by
  unfold frameHits; infer_instance

theorem lookupLine_eq_getD (m : ProfileMetrics) (p : String) (l : Nat) :
    lookupLine m p l = assocLookup ((assocLookup m p).getD []) l := by
  unfold lookupLine
  cases assocLookup m p with
  | none => simp [assocLookup]
  | some fm => simp

theorem lookupLine_processFrame (resolve : String → Option String)
    (idx : SampleTypeIndices) (s : Sample) (m : ProfileMetrics) (fr : StackFrame)
    (p : String) (l : Nat) :
    lookupLine (processFrame resolve idx s m fr) p l =
      if frameHits resolve fr p l
      then some (accumulateMetrics idx s (fr.locationIndex == 0) (lineAt m p l))
      else lookupLine m p l := by
  unfold processFrame
  by_cases hguard : fr.filename = "" ∨ fr.line = 0
  · rw [if_pos hguard, if_neg]
    rintro ⟨h1, h2, -, -⟩
    rcases hguard with h | h
    exacts [h1 h, h2 h]
  · rw [if_neg hguard]
    push_neg at hguard
    obtain ⟨hfn, hline⟩ := hguard
    rcases hres : resolve fr.filename with _ | rp
    · rw [if_neg]
      rintro ⟨-, -, h3, -⟩
      rw [hres] at h3
      exact Option.noConfusion h3
    · by_cases hp : rp = p
      · subst hp
        by_cases hl : fr.line = l
        · subst hl
          rw [if_pos ⟨hfn, hline, hres, rfl⟩]
          unfold lookupLine
          rw [assocLookup_updateAssoc_self]
          simp only [Option.some.injEq]
          rw [assocLookup_updateAssoc_self]
          unfold lineAt
          rw [lookupLine_eq_getD]
        · rw [if_neg (fun h => hl h.2.2.2)]
          unfold lookupLine
          rw [assocLookup_updateAssoc_self]
          simp only []
          rw [assocLookup_updateAssoc_ne _ _ _ (fun h => hl h.symm),
            ← lookupLine_eq_getD]
          rfl
      · rw [if_neg (fun h => hp (Option.some.injEq _ _ ▸ (hres ▸ h.2.2.1)))]
        unfold lookupLine
        rw [assocLookup_updateAssoc_ne _ _ _ (fun h => hp h.symm)]

theorem lineAt_processFrame (resolve : String → Option String)
    (idx : SampleTypeIndices) (s : Sample) (m : ProfileMetrics) (fr : StackFrame)
    (p : String) (l : Nat) :
    lineAt (processFrame resolve idx s m fr) p l =
      if frameHits resolve fr p l
      then applyDelta (frameDelta idx s (fr.locationIndex == 0)) (lineAt m p l)
      else lineAt m p l := by
  unfold lineAt
  rw [lookupLine_processFrame]
  by_cases h : frameHits resolve fr p l
  · simp [h, accumulateMetrics_eq_applyDelta, lineAt]
  · simp [h]

/-- Total delta that hitting frames of a list contribute to `(p, l)`. -/
def hitDeltaSum (resolve : String → Option String) (idx : SampleTypeIndices)
    (s : Sample) (L : List StackFrame) (p : String) (l : Nat) : MetricsDelta :=
  ((L.filter (fun fr => decide (frameHits resolve fr p l))).map
    (fun fr => frameDelta idx s (fr.locationIndex == 0))).sum

theorem hitDeltaSum_nil (resolve : String → Option String) (idx : SampleTypeIndices)
    (s : Sample) (p : String) (l : Nat) : hitDeltaSum resolve idx s [] p l = 0 := rfl

theorem hitDeltaSum_cons (resolve : String → Option String) (idx : SampleTypeIndices)
    (s : Sample) (fr : StackFrame) (L : List StackFrame) (p : String) (l : Nat) :
    hitDeltaSum resolve idx s (fr :: L) p l =
      (if frameHits resolve fr p l then frameDelta idx s (fr.locationIndex == 0) else 0)
        + hitDeltaSum resolve idx s L p l := by
  unfold hitDeltaSum
  by_cases h : frameHits resolve fr p l <;> simp [h]

theorem lookupLine_foldl_processFrame (resolve : String → Option String)
    (idx : SampleTypeIndices) (s : Sample) (L : List StackFrame)
    (m : ProfileMetrics) (p : String) (l : Nat) :
    lookupLine (L.foldl (processFrame resolve idx s) m) p l =
      if ∃ fr ∈ L, frameHits resolve fr p l
      then some (applyDelta (hitDeltaSum resolve idx s L p l) (lineAt m p l))
      else lookupLine m p l := by
  induction L generalizing m with
  | nil => simp [hitDeltaSum_nil]
  | cons fr rest ih =>
    rw [List.foldl_cons, ih]
    by_cases hfr : frameHits resolve fr p l
    · have hstep : lineAt (processFrame resolve idx s m fr) p l
          = applyDelta (frameDelta idx s (fr.locationIndex == 0)) (lineAt m p l) := by
        rw [lineAt_processFrame, if_pos hfr]
      by_cases hrest : ∃ fr' ∈ rest, frameHits resolve fr' p l
      · rw [if_pos hrest, if_pos ⟨fr, List.mem_cons_self fr rest, hfr⟩, hstep,
          applyDelta_add, hitDeltaSum_cons, if_pos hfr]
      · rw [if_neg hrest, if_pos ⟨fr, List.mem_cons_self fr rest, hfr⟩,
          lookupLine_processFrame, if_pos hfr, accumulateMetrics_eq_applyDelta,
          hitDeltaSum_cons, if_pos hfr]
        have hzero : hitDeltaSum resolve idx s rest p l = 0 := by
          unfold hitDeltaSum
          have : rest.filter (fun fr' => decide (frameHits resolve fr' p l)) = [] := by
            simp only [List.filter_eq_nil_iff, decide_eq_true_eq]
            intro a ha h
            exact hrest ⟨a, ha, h⟩
          rw [this]
          rfl
        rw [hzero, add_zero]
    · have hstep : lookupLine (processFrame resolve idx s m fr) p l = lookupLine m p l := by
        rw [lookupLine_processFrame, if_neg hfr]
      have hstep' : lineAt (processFrame resolve idx s m fr) p l = lineAt m p l := by
        rw [lineAt_processFrame, if_neg hfr]
      rw [hstep, hstep', hitDeltaSum_cons, if_neg hfr, zero_add]
      have hiff : (∃ fr' ∈ fr :: rest, frameHits resolve fr' p l)
          ↔ ∃ fr' ∈ rest, frameHits resolve fr' p l := by
        constructor
        · rintro ⟨a, ha, h⟩
          rcases List.mem_cons.mp ha with rfl | ha'
          · exact absurd h hfr
          · exact ⟨a, ha', h⟩
        · rintro ⟨a, ha, h⟩
          exact ⟨a, List.mem_cons_of_mem _ ha, h⟩
      by_cases hrest : ∃ fr' ∈ rest, frameHits resolve fr' p l
      · rw [if_pos hrest, if_pos (hiff.mpr hrest)]
      · rw [if_neg hrest, if_neg (fun h => hrest (hiff.mp h))]

theorem hitDeltaSum_eq_zero (resolve : String → Option String)
    (idx : SampleTypeIndices) (s : Sample) (L : List StackFrame) (p : String)
    (l : Nat) (h : ∀ fr ∈ L, ¬ frameHits resolve fr p l) :
    hitDeltaSum resolve idx s L p l = 0 := by
  unfold hitDeltaSum
  have : L.filter (fun fr => decide (frameHits resolve fr p l)) = [] := by
    simp only [List.filter_eq_nil_iff, decide_eq_true_eq]
    exact h
  rw [this]
  rfl

theorem lineAt_foldl_processFrame (resolve : String → Option String)
    (idx : SampleTypeIndices) (s : Sample) (L : List StackFrame)
    (m : ProfileMetrics) (p : String) (l : Nat) :
    lineAt (L.foldl (processFrame resolve idx s) m) p l =
      applyDelta (hitDeltaSum resolve idx s L p l) (lineAt m p l) := by
  unfold lineAt
  rw [lookupLine_foldl_processFrame]
  by_cases h : ∃ fr ∈ L, frameHits resolve fr p l
  · simp [h, lineAt]
  · push_neg at h
    rw [if_neg (by push_neg; exact h), hitDeltaSum_eq_zero resolve idx s L p l h,
      applyDelta_zero]

/-- Everything one sample contributes to the `(p, l)` entry. -/
def sampleLineDelta (profile : ParsedProfile) (resolve : String → Option String)
    (idx : SampleTypeIndices) (s : Sample) (p : String) (l : Nat) : MetricsDelta :=
  hitDeltaSum resolve idx s (getStackTrace s profile) p l

/-- Does some frame of this sample contribute to the `(p, l)` entry? -/
def sampleHits (profile : ParsedProfile) (resolve : String → Option String)
    (s : Sample) (p : String) (l : Nat) : Prop :=
  ∃ fr ∈ getStackTrace s profile, frameHits resolve fr p l

instance (profile : ParsedProfile) (resolve : String → Option String) (s : Sample)
    (p : String) (l : Nat) : Decidable (sampleHits profile resolve s p l) := by
  unfold sampleHits; infer_instance

theorem sampleLineDelta_eq_zero (profile : ParsedProfile)
    (resolve : String → Option String) (idx : SampleTypeIndices) (s : Sample)
    (p : String) (l : Nat) (h : ¬ sampleHits profile resolve s p l) :
    sampleLineDelta profile resolve idx s p l = 0 := by
  apply hitDeltaSum_eq_zero
  intro fr hfr hh
  exact h ⟨fr, hfr, hh⟩

theorem lookupLine_foldl_processSample (profile : ParsedProfile)
    (resolve : String → Option String) (idx : SampleTypeIndices)
    (S : List Sample) (m : ProfileMetrics) (p : String) (l : Nat) :
    lookupLine (S.foldl (processSample profile resolve idx) m) p l =
      if ∃ s ∈ S, sampleHits profile resolve s p l
      then some (applyDelta
        ((S.map fun s => sampleLineDelta profile resolve idx s p l).sum)
        (lineAt m p l))
      else lookupLine m p l := by
  induction S generalizing m with
  | nil => simp
  | cons s rest ih =>
    rw [List.foldl_cons, ih]
    have hstepLineAt : lineAt (processSample profile resolve idx m s) p l
        = applyDelta (sampleLineDelta profile resolve idx s p l) (lineAt m p l) :=
      lineAt_foldl_processFrame resolve idx s (getStackTrace s profile) m p l
    by_cases hs : sampleHits profile resolve s p l
    · have hstep : lookupLine (processSample profile resolve idx m s) p l
          = some (applyDelta (sampleLineDelta profile resolve idx s p l) (lineAt m p l)) := by
        unfold processSample
        rw [lookupLine_foldl_processFrame,
          if_pos (show ∃ fr ∈ getStackTrace s profile, frameHits resolve fr p l from hs)]
        rfl
      by_cases hrest : ∃ s' ∈ rest, sampleHits profile resolve s' p l
      · rw [if_pos hrest, if_pos ⟨s, List.mem_cons_self s rest, hs⟩, hstepLineAt,
          applyDelta_add, List.map_cons, List.sum_cons]
      · rw [if_neg hrest, if_pos ⟨s, List.mem_cons_self s rest, hs⟩, hstep,
          List.map_cons, List.sum_cons]
        have hzero : (rest.map fun s' => sampleLineDelta profile resolve idx s' p l).sum = 0 := by
          apply List.sum_eq_zero
          intro x hx
          obtain ⟨s', hs', rfl⟩ := List.mem_map.mp hx
          exact sampleLineDelta_eq_zero profile resolve idx s' p l
            (fun h => hrest ⟨s', hs', h⟩)
        rw [hzero, add_zero]
    · have hstep : lookupLine (processSample profile resolve idx m s) p l
          = lookupLine m p l := by
        unfold processSample
        rw [lookupLine_foldl_processFrame,
          if_neg (show ¬∃ fr ∈ getStackTrace s profile, frameHits resolve fr p l from hs)]
      have hzero : sampleLineDelta profile resolve idx s p l = 0 :=
        sampleLineDelta_eq_zero profile resolve idx s p l hs
      rw [hstep, hstepLineAt, hzero, applyDelta_zero, List.map_cons, List.sum_cons,
        hzero, zero_add]
      have hiff : (∃ s' ∈ s :: rest, sampleHits profile resolve s' p l)
          ↔ ∃ s' ∈ rest, sampleHits profile resolve s' p l := by
        constructor
        · rintro ⟨a, ha, h⟩
          rcases List.mem_cons.mp ha with rfl | ha'
          · exact absurd h hs
          · exact ⟨a, ha', h⟩
        · rintro ⟨a, ha, h⟩
          exact ⟨a, List.mem_cons_of_mem _ ha, h⟩
      by_cases hrest : ∃ s' ∈ rest, sampleHits profile resolve s' p l
      · rw [if_pos hrest, if_pos (hiff.mpr hrest)]
      · rw [if_neg hrest, if_neg (fun h => hrest (hiff.mp h))]

/-- Everything the whole sample list contributes to the `(p, l)` entry. -/
def profileLineDelta (profile : ParsedProfile) (resolve : String → Option String)
    (idx : SampleTypeIndices) (S : List Sample) (p : String) (l : Nat) : MetricsDelta :=
  (S.map fun s => sampleLineDelta profile resolve idx s p l).sum

/-! ### Delta components -/

def dCpu (d : MetricsDelta) : ℚ := d.1
def dSelfCpu (d : MetricsDelta) : ℚ := d.2.1
def dMem (d : MetricsDelta) : ℚ := d.2.2.1
def dSelfMem (d : MetricsDelta) : ℚ := d.2.2.2.1
def dAlloc (d : MetricsDelta) : ℚ := d.2.2.2.2

theorem dCpu_sum (L : List MetricsDelta) : dCpu L.sum = (L.map dCpu).sum := by
  induction L with
  | nil => rfl
  | cons d rest ih =>
    rw [List.sum_cons, List.map_cons, List.sum_cons, ← ih]
    rfl

theorem dSelfCpu_sum (L : List MetricsDelta) : dSelfCpu L.sum = (L.map dSelfCpu).sum := by
  induction L with
  | nil => rfl
  | cons d rest ih =>
    rw [List.sum_cons, List.map_cons, List.sum_cons, ← ih]
    rfl

theorem dMem_sum (L : List MetricsDelta) : dMem L.sum = (L.map dMem).sum := by
  induction L with
  | nil => rfl
  | cons d rest ih =>
    rw [List.sum_cons, List.map_cons, List.sum_cons, ← ih]
    rfl

theorem dSelfMem_sum (L : List MetricsDelta) : dSelfMem L.sum = (L.map dSelfMem).sum := by
  induction L with
  | nil => rfl
  | cons d rest ih =>
    rw [List.sum_cons, List.map_cons, List.sum_cons, ← ih]
    rfl

theorem frameDelta_selfCpu_nonneg (idx : SampleTypeIndices) (s : Sample) (b : Bool) :
    0 ≤ dSelfCpu (frameDelta idx s b) := by
  cases b <;> simp [dSelfCpu, frameDelta]

theorem frameDelta_selfCpu_le (idx : SampleTypeIndices) (s : Sample) (b : Bool) :
    dSelfCpu (frameDelta idx s b) ≤ dCpu (frameDelta idx s b) := by
  cases b <;> simp [dSelfCpu, dCpu, frameDelta]

theorem frameDelta_selfMem_nonneg (idx : SampleTypeIndices) (s : Sample) (b : Bool) :
    0 ≤ dSelfMem (frameDelta idx s b) := by
  cases b <;> simp [dSelfMem, frameDelta]

theorem frameDelta_selfMem_le (idx : SampleTypeIndices) (s : Sample) (b : Bool) :
    dSelfMem (frameDelta idx s b) ≤ dMem (frameDelta idx s b) := by
  cases b <;> simp [dSelfMem, dMem, frameDelta]

theorem hitDeltaSum_selfCpu_le (resolve : String → Option String)
    (idx : SampleTypeIndices) (s : Sample) (L : List StackFrame) (p : String)
    (l : Nat) :
    dSelfCpu (hitDeltaSum resolve idx s L p l) ≤ dCpu (hitDeltaSum resolve idx s L p l) := by
  unfold hitDeltaSum
  rw [dSelfCpu_sum, dCpu_sum, List.map_map, List.map_map]
  exact List.sum_le_sum fun fr _ => frameDelta_selfCpu_le idx s _

theorem hitDeltaSum_selfCpu_nonneg (resolve : String → Option String)
    (idx : SampleTypeIndices) (s : Sample) (L : List StackFrame) (p : String)
    (l : Nat) : 0 ≤ dSelfCpu (hitDeltaSum resolve idx s L p l) := by
  unfold hitDeltaSum
  rw [dSelfCpu_sum, List.map_map]
  apply List.sum_nonneg
  intro x hx
  obtain ⟨fr, hfr, rfl⟩ := List.mem_map.mp hx
  exact frameDelta_selfCpu_nonneg idx s _

theorem hitDeltaSum_selfMem_le (resolve : String → Option String)
    (idx : SampleTypeIndices) (s : Sample) (L : List StackFrame) (p : String)
    (l : Nat) :
    dSelfMem (hitDeltaSum resolve idx s L p l) ≤ dMem (hitDeltaSum resolve idx s L p l) := by
  unfold hitDeltaSum
  rw [dSelfMem_sum, dMem_sum, List.map_map, List.map_map]
  exact List.sum_le_sum fun fr _ => frameDelta_selfMem_le idx s _

theorem hitDeltaSum_selfMem_nonneg (resolve : String → Option String)
    (idx : SampleTypeIndices) (s : Sample) (L : List StackFrame) (p : String)
    (l : Nat) : 0 ≤ dSelfMem (hitDeltaSum resolve idx s L p l) := by
  unfold hitDeltaSum
  rw [dSelfMem_sum, List.map_map]
  apply List.sum_nonneg
  intro x hx
  obtain ⟨fr, hfr, rfl⟩ := List.mem_map.mp hx
  exact frameDelta_selfMem_nonneg idx s _

theorem profileLineDelta_selfCpu_le (profile : ParsedProfile)
    (resolve : String → Option String) (idx : SampleTypeIndices) (S : List Sample)
    (p : String) (l : Nat) :
    dSelfCpu (profileLineDelta profile resolve idx S p l)
      ≤ dCpu (profileLineDelta profile resolve idx S p l) := by
  unfold profileLineDelta
  rw [dSelfCpu_sum, dCpu_sum, List.map_map, List.map_map]
  exact List.sum_le_sum fun s _ => hitDeltaSum_selfCpu_le resolve idx s _ p l

theorem profileLineDelta_selfCpu_nonneg (profile : ParsedProfile)
    (resolve : String → Option String) (idx : SampleTypeIndices) (S : List Sample)
    (p : String) (l : Nat) :
    0 ≤ dSelfCpu (profileLineDelta profile resolve idx S p l) := by
  unfold profileLineDelta
  rw [dSelfCpu_sum, List.map_map]
  apply List.sum_nonneg
  intro x hx
  obtain ⟨s, hs, rfl⟩ := List.mem_map.mp hx
  exact hitDeltaSum_selfCpu_nonneg resolve idx s _ p l

theorem profileLineDelta_selfMem_le (profile : ParsedProfile)
    (resolve : String → Option String) (idx : SampleTypeIndices) (S : List Sample)
    (p : String) (l : Nat) :
    dSelfMem (profileLineDelta profile resolve idx S p l)
      ≤ dMem (profileLineDelta profile resolve idx S p l) := by
  unfold profileLineDelta
  rw [dSelfMem_sum, dMem_sum, List.map_map, List.map_map]
  exact List.sum_le_sum fun s _ => hitDeltaSum_selfMem_le resolve idx s _ p l

theorem profileLineDelta_selfMem_nonneg (profile : ParsedProfile)
    (resolve : String → Option String) (idx : SampleTypeIndices) (S : List Sample)
    (p : String) (l : Nat) :
    0 ≤ dSelfMem (profileLineDelta profile resolve idx S p l) := by
  unfold profileLineDelta
  rw [dSelfMem_sum, List.map_map]
  apply List.sum_nonneg
  intro x hx
  obtain ⟨s, hs, rfl⟩ := List.mem_map.mp hx
  exact hitDeltaSum_selfMem_nonneg resolve idx s _ p l

/-! ### Totals as sums -/

theorem totalCpuOf_eq_sum (idx : SampleTypeIndices) (S : List Sample) :
    totalCpuOf idx S = (S.map (cpuValOf idx)).sum := by
  have key : ∀ n : Nat, S.foldl (fun totalCpu s =>
      match idx.cpuIndex with
      | some i => if valueAt s i ≠ 0 then totalCpu + valueAt s i else totalCpu
      | none => totalCpu) n = n + (S.map (cpuValOf idx)).sum := by
    intro n
    induction S generalizing n with
    | nil => simp
    | cons s rest ih =>
      rw [List.foldl_cons, ih, List.map_cons, List.sum_cons, ← Nat.add_assoc]
      congr 1
      show (match idx.cpuIndex with
        | some i => if valueAt s i ≠ 0 then n + valueAt s i else n
        | none => n) = n + cpuValOf idx s
      unfold cpuValOf
      rcases idx.cpuIndex with _ | i
      · simp
      · by_cases hv : valueAt s i = 0 <;> simp [hv]
  have h0 := key 0
  rwa [Nat.zero_add] at h0

theorem totalMemoryOf_eq_sum (idx : SampleTypeIndices) (S : List Sample) :
    totalMemoryOf idx S = (S.map (memValOf idx)).sum := by
  have key : ∀ n : Nat, S.foldl (fun totalMemory s =>
      match idx.allocSpaceIndex with
      | some i =>
        if valueAt s i ≠ 0 then totalMemory + valueAt s i
        else
          match idx.inuseSpaceIndex with
          | some j => if valueAt s j ≠ 0 then totalMemory + valueAt s j else totalMemory
          | none => totalMemory
      | none =>
        match idx.inuseSpaceIndex with
        | some j => if valueAt s j ≠ 0 then totalMemory + valueAt s j else totalMemory
        | none => totalMemory) n = n + (S.map (memValOf idx)).sum := by
    intro n
    induction S generalizing n with
    | nil => simp
    | cons s rest ih =>
      rw [List.foldl_cons, ih, List.map_cons, List.sum_cons, ← Nat.add_assoc]
      congr 1
      show (match idx.allocSpaceIndex with
        | some i =>
          if valueAt s i ≠ 0 then n + valueAt s i
          else
            match idx.inuseSpaceIndex with
            | some j => if valueAt s j ≠ 0 then n + valueAt s j else n
            | none => n
        | none =>
          match idx.inuseSpaceIndex with
          | some j => if valueAt s j ≠ 0 then n + valueAt s j else n
          | none => n) = n + memValOf idx s
      unfold memValOf inuseValOf
      rcases idx.allocSpaceIndex with _ | i
      · rcases idx.inuseSpaceIndex with _ | j
        · simp
        · by_cases hv : valueAt s j = 0 <;> simp [hv]
      · by_cases hv : valueAt s i = 0
        · rcases idx.inuseSpaceIndex with _ | j
          · simp [hv]
          · by_cases hv2 : valueAt s j = 0 <;> simp [hv, hv2]
        · simp [hv]
  have h0 := key 0
  rwa [Nat.zero_add] at h0

theorem cpuValOf_eq_zero_of_totalZero (idx : SampleTypeIndices) (S : List Sample)
    (h : totalCpuOf idx S = 0) : ∀ s ∈ S, cpuValOf idx s = 0 := by
  rw [totalCpuOf_eq_sum] at h
  intro s hs
  exact List.sum_eq_zero_iff.mp h _ (List.mem_map_of_mem _ hs)

theorem memValOf_eq_zero_of_totalZero (idx : SampleTypeIndices) (S : List Sample)
    (h : totalMemoryOf idx S = 0) : ∀ s ∈ S, memValOf idx s = 0 := by
  rw [totalMemoryOf_eq_sum] at h
  intro s hs
  exact List.sum_eq_zero_iff.mp h _ (List.mem_map_of_mem _ hs)

theorem profileLineDelta_cpu_zero (profile : ParsedProfile)
    (resolve : String → Option String) (idx : SampleTypeIndices) (S : List Sample)
    (p : String) (l : Nat) (h : ∀ s ∈ S, cpuValOf idx s = 0) :
    dCpu (profileLineDelta profile resolve idx S p l) = 0
      ∧ dSelfCpu (profileLineDelta profile resolve idx S p l) = 0 := by
  constructor
  · unfold profileLineDelta
    rw [dCpu_sum, List.map_map]
    apply List.sum_eq_zero
    intro x hx
    obtain ⟨s, hs, rfl⟩ := List.mem_map.mp hx
    show dCpu (hitDeltaSum resolve idx s _ p l) = 0
    unfold hitDeltaSum
    rw [dCpu_sum, List.map_map]
    apply List.sum_eq_zero
    intro y hy
    obtain ⟨fr, hfr, rfl⟩ := List.mem_map.mp hy
    show dCpu (frameDelta idx s (fr.locationIndex == 0)) = 0
    simp [dCpu, frameDelta, h s hs]
  · unfold profileLineDelta
    rw [dSelfCpu_sum, List.map_map]
    apply List.sum_eq_zero
    intro x hx
    obtain ⟨s, hs, rfl⟩ := List.mem_map.mp hx
    show dSelfCpu (hitDeltaSum resolve idx s _ p l) = 0
    unfold hitDeltaSum
    rw [dSelfCpu_sum, List.map_map]
    apply List.sum_eq_zero
    intro y hy
    obtain ⟨fr, hfr, rfl⟩ := List.mem_map.mp hy
    show dSelfCpu (frameDelta idx s (fr.locationIndex == 0)) = 0
    cases hb : (fr.locationIndex == 0) <;> simp [dSelfCpu, frameDelta, h s hs]

theorem profileLineDelta_mem_zero (profile : ParsedProfile)
    (resolve : String → Option String) (idx : SampleTypeIndices) (S : List Sample)
    (p : String) (l : Nat) (h : ∀ s ∈ S, memValOf idx s = 0) :
    dMem (profileLineDelta profile resolve idx S p l) = 0
      ∧ dSelfMem (profileLineDelta profile resolve idx S p l) = 0 := by
  constructor
  · unfold profileLineDelta
    rw [dMem_sum, List.map_map]
    apply List.sum_eq_zero
    intro x hx
    obtain ⟨s, hs, rfl⟩ := List.mem_map.mp hx
    show dMem (hitDeltaSum resolve idx s _ p l) = 0
    unfold hitDeltaSum
    rw [dMem_sum, List.map_map]
    apply List.sum_eq_zero
    intro y hy
    obtain ⟨fr, hfr, rfl⟩ := List.mem_map.mp hy
    show dMem (frameDelta idx s (fr.locationIndex == 0)) = 0
    simp [dMem, frameDelta, h s hs]
  · unfold profileLineDelta
    rw [dSelfMem_sum, List.map_map]
    apply List.sum_eq_zero
    intro x hx
    obtain ⟨s, hs, rfl⟩ := List.mem_map.mp hx
    show dSelfMem (hitDeltaSum resolve idx s _ p l) = 0
    unfold hitDeltaSum
    rw [dSelfMem_sum, List.map_map]
    apply List.sum_eq_zero
    intro y hy
    obtain ⟨fr, hfr, rfl⟩ := List.mem_map.mp hy
    show dSelfMem (frameDelta idx s (fr.locationIndex == 0)) = 0
    cases hb : (fr.locationIndex == 0) <;> simp [dSelfMem, frameDelta, h s hs]

/-! ### The accumulated map, from the empty starting map -/

theorem lookupLine_accumulated (profile : ParsedProfile)
    (resolve : String → Option String) (idx : SampleTypeIndices) (S : List Sample)
    (p : String) (l : Nat) :
    lookupLine (S.foldl (processSample profile resolve idx) []) p l =
      if ∃ s ∈ S, sampleHits profile resolve s p l
      then some (applyDelta (profileLineDelta profile resolve idx S p l)
        (newLineMetrics p l))
      else none := by
  rw [lookupLine_foldl_processSample]
  by_cases h : ∃ s ∈ S, sampleHits profile resolve s p l
  · rw [if_pos h, if_pos h]
    rfl
  · rw [if_neg h, if_neg h]
    rfl

theorem applyDelta_newLineMetrics (d : MetricsDelta) (p : String) (l : Nat) :
    applyDelta d (newLineMetrics p l) =
      { filePath := p, line := l, cpuPercent := 0, cpuSamples := dCpu d,
        memoryBytes := dMem d, memoryPercent := 0, allocations := dAlloc d,
        selfCpuPercent := dSelfCpu d, selfMemoryPercent := dSelfMem d } := by
  simp [applyDelta, newLineMetrics, dCpu, dMem, dAlloc, dSelfCpu, dSelfMem]

theorem normalizeLineMetrics_eq (tc tm : Nat) (lm : LineMetrics) :
    normalizeLineMetrics tc tm lm =
      { lm with
        cpuPercent := if tc > 0 then lm.cpuSamples / (tc : ℚ) * 100 else lm.cpuPercent,
        selfCpuPercent :=
          if tc > 0 then lm.selfCpuPercent / (tc : ℚ) * 100 else lm.selfCpuPercent,
        memoryPercent :=
          if tm > 0 then lm.memoryBytes / (tm : ℚ) * 100 else lm.memoryPercent,
        selfMemoryPercent :=
          if tm > 0 then lm.selfMemoryPercent / (tm : ℚ) * 100 else lm.selfMemoryPercent } := by
  unfold normalizeLineMetrics
  by_cases hc : tc > 0 <;> by_cases hm : tm > 0 <;> simp [hc, hm]

/-! ### Claim theorems about the attribution engine -/

theorem div_mul_le_div_mul {a b : ℚ} (t : Nat) (h : a ≤ b) :
    a / (t : ℚ) * 100 ≤ b / (t : ℚ) * 100 := by
  apply mul_le_mul_of_nonneg_right _ (by norm_num)
  rw [div_eq_mul_inv, div_eq_mul_inv]
  apply mul_le_mul_of_nonneg_right h
  positivity

/-- C1: for every profile ingested by `mapSamplesToSource` and every
(resolved file path, line) entry of the resulting metrics, each self field is
at most its paired cumulative field: `selfCpuPercent ≤ cpuPercent` and
`selfMemoryPercent ≤ memoryPercent` (exact in the rational embedding, which
is the "within floating tolerance" statement about the double-precision
original). -/
theorem self_le_cumulative_mapSamplesToSource (profile : ParsedProfile)
    (resolve : String → Option String) (p : String) (l : Nat) (lm : LineMetrics)
    (h : lookupLine (mapSamplesToSource profile resolve) p l = some lm) :
    lm.selfCpuPercent ≤ lm.cpuPercent ∧ lm.selfMemoryPercent ≤ lm.memoryPercent := by
  unfold mapSamplesToSource at h
  rw [lookupLine_normalizeMetrics, Option.map_eq_some'] at h
  obtain ⟨lm0, h0, rfl⟩ := h
  rw [lookupLine_accumulated] at h0
  by_cases hcond : ∃ s ∈ profile.samples,
      sampleHits profile resolve s p l
  · rw [if_pos hcond, Option.some.injEq] at h0
    rw [← h0, applyDelta_newLineMetrics, normalizeLineMetrics_eq]
    constructor
    · by_cases hc : totalCpuOf (findIndices profile) profile.samples > 0
      · simp only [if_pos hc]
        exact div_mul_le_div_mul _ (profileLineDelta_selfCpu_le profile resolve _ _ p l)
      · simp only [if_neg hc]
        have hz : totalCpuOf (findIndices profile) profile.samples = 0 :=
          Nat.eq_zero_of_not_pos hc
        have hzero := (profileLineDelta_cpu_zero profile resolve (findIndices profile)
          profile.samples p l (cpuValOf_eq_zero_of_totalZero _ _ hz)).2
        simp [hzero]
    · by_cases hm : totalMemoryOf (findIndices profile) profile.samples > 0
      · simp only [if_pos hm]
        exact div_mul_le_div_mul _ (profileLineDelta_selfMem_le profile resolve _ _ p l)
      · simp only [if_neg hm]
        have hz : totalMemoryOf (findIndices profile) profile.samples = 0 :=
          Nat.eq_zero_of_not_pos hm
        have hzero := (profileLineDelta_mem_zero profile resolve (findIndices profile)
          profile.samples p l (memValOf_eq_zero_of_totalZero _ _ hz)).2
        simp [hzero]
  · rw [if_neg hcond] at h0
    exact Option.noConfusion h0

/-- C6: when a profile-wide total is zero, the percent fields derived from it
stay zero for every entry of the result (no division by zero happens; the
normalization pass simply leaves the zero-initialized percent fields alone). -/
theorem percent_zero_of_total_zero (profile : ParsedProfile)
    (resolve : String → Option String) (p : String) (l : Nat) (lm : LineMetrics)
    (h : lookupLine (mapSamplesToSource profile resolve) p l = some lm) :
    (totalCpuOf (findIndices profile) profile.samples = 0 →
        lm.cpuPercent = 0 ∧ lm.selfCpuPercent = 0)
      ∧ (totalMemoryOf (findIndices profile) profile.samples = 0 →
        lm.memoryPercent = 0 ∧ lm.selfMemoryPercent = 0) := by
  unfold mapSamplesToSource at h
  rw [lookupLine_normalizeMetrics, Option.map_eq_some'] at h
  obtain ⟨lm0, h0, rfl⟩ := h
  rw [lookupLine_accumulated] at h0
  by_cases hcond : ∃ s ∈ profile.samples,
      sampleHits profile resolve s p l
  · rw [if_pos hcond, Option.some.injEq] at h0
    rw [← h0, applyDelta_newLineMetrics, normalizeLineMetrics_eq]
    constructor
    · intro hz
      have hc : ¬ totalCpuOf (findIndices profile) profile.samples > 0 := by omega
      have hzero := profileLineDelta_cpu_zero profile resolve (findIndices profile)
        profile.samples p l (cpuValOf_eq_zero_of_totalZero _ _ hz)
      simp [if_neg hc, hzero.2]
    · intro hz
      have hm : ¬ totalMemoryOf (findIndices profile) profile.samples > 0 := by omega
      have hzero := profileLineDelta_mem_zero profile resolve (findIndices profile)
        profile.samples p l (memValOf_eq_zero_of_totalZero _ _ hz)
      simp [if_neg hm, hzero.2]
  · rw [if_neg hcond] at h0
    exact Option.noConfusion h0

/-- C5: aggregation is additive and commutative per sample, so permuting the
sample list leaves every `(file, line)` lookup of the resulting metrics map
unchanged (same key set, field-wise equal values and percentages). -/
theorem mapSamplesToSource_perm_invariant (profile : ParsedProfile)
    (resolve : String → Option String) (samples' : List Sample)
    (hperm : profile.samples.Perm samples') (p : String) (l : Nat) :
    lookupLine (mapSamplesToSource profile resolve) p l
      = lookupLine (mapSamplesToSource { profile with samples := samples' } resolve) p l := by
  unfold mapSamplesToSource
  have hidx : findIndices { profile with samples := samples' } = findIndices profile := rfl
  have htc : totalCpuOf (findIndices profile) samples'
      = totalCpuOf (findIndices profile) profile.samples := by
    rw [totalCpuOf_eq_sum, totalCpuOf_eq_sum]
    exact ((hperm.map (cpuValOf (findIndices profile))).sum_eq).symm
  have htm : totalMemoryOf (findIndices profile) samples'
      = totalMemoryOf (findIndices profile) profile.samples := by
    rw [totalMemoryOf_eq_sum, totalMemoryOf_eq_sum]
    exact ((hperm.map (memValOf (findIndices profile))).sum_eq).symm
  rw [lookupLine_normalizeMetrics, lookupLine_normalizeMetrics]
  show _ = (lookupLine (samples'.foldl (processSample { profile with samples := samples' }
    resolve (findIndices { profile with samples := samples' })) []) p l).map
      (normalizeLineMetrics (totalCpuOf (findIndices { profile with samples := samples' }) samples')
        (totalMemoryOf (findIndices { profile with samples := samples' }) samples'))
  have hfold : samples'.foldl (processSample { profile with samples := samples' }
      resolve (findIndices { profile with samples := samples' })) []
      = samples'.foldl (processSample profile resolve (findIndices profile)) [] := rfl
  rw [hfold, hidx, htc, htm]
  congr 1
  rw [lookupLine_accumulated, lookupLine_accumulated]
  have hhits : ∀ s, sampleHits { profile with samples := samples' } resolve s p l
      ↔ sampleHits profile resolve s p l := fun s => Iff.rfl
  have hcond : (∃ s ∈ profile.samples, sampleHits profile resolve s p l)
      ↔ ∃ s ∈ samples', sampleHits profile resolve s p l := by
    constructor
    · rintro ⟨s, hs, h⟩
      exact ⟨s, hperm.mem_iff.mp hs, h⟩
    · rintro ⟨s, hs, h⟩
      exact ⟨s, hperm.mem_iff.mpr hs, h⟩
  have hdelta : profileLineDelta profile resolve (findIndices profile)
      profile.samples p l
      = profileLineDelta profile resolve (findIndices profile) samples' p l := by
    unfold profileLineDelta
    exact (hperm.map fun s => sampleLineDelta profile resolve (findIndices profile) s p l).sum_eq
  by_cases hc : ∃ s ∈ profile.samples, sampleHits profile resolve s p l
  · rw [if_pos hc, if_pos (hcond.mp hc), hdelta]
  · rw [if_neg hc, if_neg (fun h => hc (hcond.mpr h))]

theorem locationIndex_of_mem_framesOfLocation (profile : ParsedProfile)
    (lid i : Nat) (fr : StackFrame) (h : fr ∈ framesOfLocation profile lid i) :
    fr.locationIndex = i := by
  unfold framesOfLocation at h
  rcases hloc : assocLookup profile.locations lid with _ | location
  · rw [hloc] at h
    simp at h
  · rw [hloc] at h
    rw [List.mem_filterMap] at h
    obtain ⟨ll, hll, heq⟩ := h
    rcases hfun : assocLookup profile.functions ll.functionId with _ | func
    · rw [hfun] at heq
      exact Option.noConfusion heq
    · rw [hfun] at heq
      injection heq with heq
      rw [← heq]

theorem filter_self_enumFrom_eq_nil (profile : ParsedProfile) (ids : List Nat)
    (n : Nat) (hn : n ≠ 0) :
    ((ids.enumFrom n).flatMap fun q => framesOfLocation profile q.2 q.1).filter
      (fun fr => fr.locationIndex == 0) = [] := by
  induction ids generalizing n with
  | nil => rfl
  | cons id rest ih =>
    rw [List.enumFrom_cons, List.flatMap_cons, List.filter_append]
    rw [List.filter_eq_nil_iff.mpr, List.nil_append]
    · exact ih (n + 1) (Nat.succ_ne_zero n)
    · intro fr hfr
      have := locationIndex_of_mem_framesOfLocation profile id n fr hfr
      simp [this, hn]

/-- C2: the loop adds the sample's per-metric values to the hit
`(resolved path, line)` entry's cumulative fields unconditionally and to the
self fields exactly when the frame's `locationIndex` is 0; and the frames
`getStackTrace` tags with `locationIndex = 0` are exactly the (function,
line) expansions of the sample's first location — every frame of a later
location is cumulative-only. -/
theorem frame_accumulation_self_boundary (profile : ParsedProfile)
    (resolve : String → Option String) (idx : SampleTypeIndices) (s : Sample)
    (m : ProfileMetrics) (fr : StackFrame) (p : String)
    (hfn : fr.filename ≠ "") (hl : fr.line ≠ 0)
    (hres : resolve fr.filename = some p) :
    ((lineAt (processFrame resolve idx s m fr) p fr.line).cpuSamples
        = (lineAt m p fr.line).cpuSamples + (cpuValOf idx s : ℚ)
      ∧ (lineAt (processFrame resolve idx s m fr) p fr.line).selfCpuPercent
        = (lineAt m p fr.line).selfCpuPercent
            + (if fr.locationIndex = 0 then (cpuValOf idx s : ℚ) else 0)
      ∧ (lineAt (processFrame resolve idx s m fr) p fr.line).memoryBytes
        = (lineAt m p fr.line).memoryBytes + (memValOf idx s : ℚ)
      ∧ (lineAt (processFrame resolve idx s m fr) p fr.line).selfMemoryPercent
        = (lineAt m p fr.line).selfMemoryPercent
            + (if fr.locationIndex = 0 then (memValOf idx s : ℚ) else 0)
      ∧ (lineAt (processFrame resolve idx s m fr) p fr.line).allocations
        = (lineAt m p fr.line).allocations + (allocValOf idx s : ℚ))
    ∧ (getStackTrace s profile).filter (fun fr' => fr'.locationIndex == 0)
        = (match s.locationIds with
           | [] => ([] : List StackFrame)
           | locId :: _ => framesOfLocation profile locId 0) := by
  constructor
  · have hhit : frameHits resolve fr p fr.line := ⟨hfn, hl, hres, rfl⟩
    have hstep := lineAt_processFrame resolve idx s m fr p fr.line
    rw [if_pos hhit] at hstep
    rw [hstep]
    by_cases hb : fr.locationIndex = 0
    · simp [applyDelta, frameDelta, hb]
    · simp [applyDelta, frameDelta, hb]
  · cases hids : s.locationIds with
    | nil =>
      unfold getStackTrace
      rw [hids]
      rfl
    | cons locId rest =>
      unfold getStackTrace
      rw [hids]
      rw [List.enum_cons, List.flatMap_cons, List.filter_append]
      rw [filter_self_enumFrom_eq_nil profile rest 1 one_ne_zero, List.append_nil]
      apply List.filter_eq_self.mpr
      intro fr' hfr'
      have := locationIndex_of_mem_framesOfLocation profile locId 0 fr' hfr'
      simp [this]

/-! ### Concrete test data for the attribution-engine claims -/

def sampleProfile : ParsedProfile :=
  { sampleTypes := [{ type := "cpu", unit := "samples" }],
    functions := [(1, { name := "main", systemName := "", filename := "main.go" })],
    locations := [(1, { lines := [{ functionId := 1, line := 10 }] })],
    samples := [{ locationIds := [1], values := [0] }] }

def sampleResolve : String → Option String := fun s => some s

def sampleLineResult : LineMetrics :=
  { filePath := "main.go", line := 10, cpuPercent := 0, cpuSamples := 0,
    memoryBytes := 0, memoryPercent := 0, allocations := 0,
    selfCpuPercent := 0, selfMemoryPercent := 0 }

def sampleSample : Sample := { locationIds := [1], values := [0] }

def sampleFrame : StackFrame :=
  { filename := "main.go", line := 10, functionName := "main", locationIndex := 0 }

def permProfile : ParsedProfile :=
  { sampleTypes := [{ type := "cpu", unit := "samples" }],
    functions := [(1, { name := "main", systemName := "", filename := "main.go" }),
      (2, { name := "helper", systemName := "", filename := "util.go" })],
    locations := [(1, { lines := [{ functionId := 1, line := 10 }] }),
      (2, { lines := [{ functionId := 2, line := 5 }] })],
    samples := [{ locationIds := [1], values := [10] },
      { locationIds := [2, 1], values := [20] }] }

def permSamples : List Sample :=
  [{ locationIds := [2, 1], values := [20] }, { locationIds := [1], values := [10] }]

theorem self_le_cumulative_witness :
    lookupLine (mapSamplesToSource sampleProfile sampleResolve) "main.go" 10
        = some sampleLineResult
      ∧ (sampleLineResult.selfCpuPercent ≤ sampleLineResult.cpuPercent
        ∧ sampleLineResult.selfMemoryPercent ≤ sampleLineResult.memoryPercent) :=
  ⟨by decide,
    self_le_cumulative_mapSamplesToSource sampleProfile sampleResolve "main.go" 10
      sampleLineResult (by decide)⟩

theorem frame_accumulation_witness :
    sampleFrame.filename ≠ "" ∧ sampleFrame.line ≠ 0
      ∧ sampleResolve sampleFrame.filename = some "main.go"
      ∧ (getStackTrace sampleSample sampleProfile).filter
          (fun fr' => fr'.locationIndex == 0) = framesOfLocation sampleProfile 1 0
      ∧ (lineAt (processFrame sampleResolve (findIndices sampleProfile) sampleSample
            [] sampleFrame) "main.go" sampleFrame.line).cpuSamples
        = (lineAt ([] : ProfileMetrics) "main.go" sampleFrame.line).cpuSamples
            + ((cpuValOf (findIndices sampleProfile) sampleSample : ℚ)) := by
  have h := frame_accumulation_self_boundary sampleProfile sampleResolve
    (findIndices sampleProfile) sampleSample [] sampleFrame "main.go"
    (by decide) (by decide) (by decide)
  exact ⟨by decide, by decide, by decide, h.2, h.1.1⟩

theorem perm_invariant_witness :
    permProfile.samples.Perm permSamples
      ∧ lookupLine (mapSamplesToSource permProfile sampleResolve) "main.go" 10
        = lookupLine (mapSamplesToSource { permProfile with samples := permSamples }
            sampleResolve) "main.go" 10 :=
  ⟨List.Perm.swap _ _ _,
    mapSamplesToSource_perm_invariant permProfile sampleResolve permSamples
      (List.Perm.swap _ _ _) "main.go" 10⟩

theorem percent_zero_witness :
    totalMemoryOf (findIndices sampleProfile) sampleProfile.samples = 0
      ∧ (sampleLineResult.memoryPercent = 0 ∧ sampleLineResult.selfMemoryPercent = 0) :=
  ⟨by decide,
    (percent_zero_of_total_zero sampleProfile sampleResolve "main.go" 10
      sampleLineResult (by decide)).2 (by decide)⟩

/-! ### Path resolution (`src/utils/pathResolver.ts`)

The class is constructed from the configured path mappings and the workspace
folders; the filesystem is abstracted into an `existsSync` oracle plus a
directory listing tree per workspace folder.  Each resolution entry point
also reports the number of filesystem probes (`fs.existsSync` and
`fs.readdirSync` calls) it performed, which the class itself never tracks —
it keeps no state at all between calls. -/

/-- `{from, to}` mapping from configuration (`from`/`to` in the source;
renamed because `from` is reserved in Lean). -/
structure PathMapping where
  fromPrefix : String
  toPrefix : String
deriving Repr, DecidableEq

inductive FsNode where
  | file (name : String)
  | dir (name : String) (children : List FsNode)

structure WorkspaceFolder where
  path : String
  tree : List FsNode

structure ResolverEnv where
  pathMappings : List PathMapping
  workspaceFolders : List WorkspaceFolder
  existsSync : String → Bool

/-- `path.join(a, b)` (model: POSIX separator). -/
def joinPath (a b : String) : String := a ++ "/" ++ b

def strStartsWith (s pre : String) : Bool := charsPrefixOf pre.toList s.toList

/-- `s.substring(n)` by code units. -/
def strDrop (s : String) (n : Nat) : String := String.mk (s.toList.drop n)

/-- `path.isAbsolute` (POSIX model). -/
def isAbsolute (p : String) : Bool := strStartsWith p "/"

/-- `path.basename` (POSIX model): the part after the last separator. -/
def basenameOf (p : String) : String :=
  String.mk ((p.toList.reverse.takeWhile (fun c => c != '/')).reverse)

mutual

/-- One dirent of the walk inside `PathResolver.searchDirectory`: recursing
into a non-hidden subdirectory performs one more `readdirSync` probe
(counted in the second component); a file is collected when its name equals
`basename`. -/
def searchEntry (basename : String) : FsNode → String → List String × Nat
  | .dir name children, dir =>
    if strStartsWith name "." = false then
      let r := searchEntries basename children (joinPath dir name)
      (r.1, r.2 + 1)
    else ([], 0)
  | .file name, dir =>
    (if name = basename then [joinPath dir name] else [], 0)

def searchEntries (basename : String) : List FsNode → String → List String × Nat
  | [], _ => ([], 0)
  | entry :: rest, dir =>
    let head := searchEntry basename entry dir
    let tail := searchEntries basename rest dir
    (head.1 ++ tail.1, head.2 + tail.2)

end

/-- `PathResolver.searchDirectory(dir, basename, results)`: one `readdirSync`
probe for `dir` itself, then the entry walk. -/
def searchDirectory (basename : String) (dir : String) (entries : List FsNode) :
    List String × Nat :=
  let r := searchEntries basename entries dir
  (r.1, r.2 + 1)

/-- `PathResolver.findFilesByBasename`. -/
def findFilesByBasename (env : ResolverEnv) (basename : String) : List String × Nat :=
  env.workspaceFolders.foldl
    (fun acc folder =>
      let r := searchDirectory basename folder.path folder.tree
      (acc.1 ++ r.1, acc.2 + r.2))
    ([], 0)

/-- Strategy 1 of `resolveFilePath`: the path-mapping loop (one `existsSync`
probe per applicable mapping, short-circuiting on the first hit). -/
def tryMappings (existsSync : String → Bool) (profilePath : String) :
    List PathMapping → Option String × Nat
  | [] => (none, 0)
  | mapping :: rest =>
    if strStartsWith profilePath mapping.fromPrefix then
      let relativePath := strDrop profilePath mapping.fromPrefix.length
      let mappedPath := joinPath mapping.toPrefix relativePath
      if existsSync mappedPath then (some mappedPath, 1)
      else
        let r := tryMappings existsSync profilePath rest
        (r.1, r.2 + 1)
    else tryMappings existsSync profilePath rest

/-- Strategy 3 of `resolveFilePath`: joining onto each workspace folder (one
`existsSync` probe per folder until a hit). -/
def tryWorkspaceFolders (existsSync : String → Bool) (profilePath : String) :
    List WorkspaceFolder → Option String × Nat
  | [] => (none, 0)
  | folder :: rest =>
    let candidatePath := joinPath folder.path profilePath
    if existsSync candidatePath then (some candidatePath, 1)
    else
      let r := tryWorkspaceFolders existsSync profilePath rest
      (r.1, r.2 + 1)

/-- `PathResolver.resolveFilePath`, strategies in source order, paired with
the number of filesystem probes the call performed. -/
def resolveFilePath (env : ResolverEnv) (profilePath : String) : Option String × Nat :=
  match tryMappings env.existsSync profilePath env.pathMappings with
  | (some mappedPath, n1) => (some mappedPath, n1)
  | (none, n1) =>
    if isAbsolute profilePath && env.existsSync profilePath then
      (some profilePath, n1 + 1)
    else
      match tryWorkspaceFolders env.existsSync profilePath env.workspaceFolders with
      | (some candidatePath, n3) =>
        (some candidatePath, n1 + (if isAbsolute profilePath then 1 else 0) + n3)
      | (none, n3) =>
        match findFilesByBasename env (basenameOf profilePath) with
        | (found, n4) =>
          match found with
          | [single] =>
            (some single, n1 + (if isAbsolute profilePath then 1 else 0) + n3 + n4)
          | _ => (none, n1 + (if isAbsolute profilePath then 1 else 0) + n3 + n4)

/-- Two consecutive `resolveFilePath` calls on the same resolver: the class
holds no cache, so the second call is the same computation again. -/
def resolveTwice (env : ResolverEnv) (p : String) :
    (Option String × Option String) × Nat :=
  (((resolveFilePath env p).1, (resolveFilePath env p).1),
    (resolveFilePath env p).2 + (resolveFilePath env p).2)

def env3 : ResolverEnv :=
  { pathMappings := [], workspaceFolders := [], existsSync := fun p => p == "/a.go" }

/-- C3 (counterexample): with no mappings and no workspace folders, resolving
the existing absolute path "/a.go" twice on one resolver performs two
filesystem probes — one `existsSync` per call — not at most one: the class
keeps no cache, so nothing is remembered between the calls. -/
theorem resolve_cache_counterexample :
    (resolveTwice env3 "/a.go").2 = 2 ∧ ¬ (resolveTwice env3 "/a.go").2 ≤ 1 := by
  decide

/-- C3 (amended): `resolveFilePath` is stateless — a second call with the
same argument returns the same result and re-runs every strategy, so two
calls issue exactly twice the filesystem probes of one call, never fewer. -/
theorem resolveFilePath_stateless (env : ResolverEnv) (p : String) :
    (resolveTwice env p).1.1 = (resolveTwice env p).1.2
      ∧ (resolveTwice env p).2 = 2 * (resolveFilePath env p).2 := by
  refine ⟨rfl, ?_⟩
  show (resolveFilePath env p).2 + (resolveFilePath env p).2 = _
  rw [two_mul]

theorem tryMappings_none (existsSync : String → Bool) (profilePath : String)
    (mappings : List PathMapping)
    (hmap : ∀ mp ∈ mappings, strStartsWith profilePath mp.fromPrefix = true →
      existsSync (joinPath mp.toPrefix (strDrop profilePath mp.fromPrefix.length)) = false) :
    (tryMappings existsSync profilePath mappings).1 = none := by
  induction mappings with
  | nil => rfl
  | cons mp rest ih =>
    unfold tryMappings
    by_cases hs : strStartsWith profilePath mp.fromPrefix = true
    · rw [if_pos hs,
        if_neg (by simp [hmap mp (List.mem_cons_self mp rest) hs])]
      exact ih fun m hm => hmap m (List.mem_cons_of_mem _ hm)
    · rw [if_neg hs]
      exact ih fun m hm => hmap m (List.mem_cons_of_mem _ hm)

theorem tryWorkspaceFolders_none (existsSync : String → Bool) (profilePath : String)
    (folders : List WorkspaceFolder)
    (hws : ∀ folder ∈ folders, existsSync (joinPath folder.path profilePath) = false) :
    (tryWorkspaceFolders existsSync profilePath folders).1 = none := by
  induction folders with
  | nil => rfl
  | cons folder rest ih =>
    unfold tryWorkspaceFolders
    rw [if_neg (by simp [hws folder (List.mem_cons_self folder rest)])]
    exact ih fun f hf => hws f (List.mem_cons_of_mem _ hf)

/-- C4: when no configured mapping applies (or its target does not exist),
the path is not an existing absolute path, and no workspace-relative join
exists, the basename fallback decides the outcome: two or more matches
resolve to unresolved (an ambiguous match is never guessed), exactly one
match is returned, and zero matches resolve to unresolved. -/
theorem basename_fallback_strictness (env : ResolverEnv) (profilePath : String)
    (hmap : ∀ mp ∈ env.pathMappings, strStartsWith profilePath mp.fromPrefix = true →
      env.existsSync (joinPath mp.toPrefix (strDrop profilePath mp.fromPrefix.length)) = false)
    (habs : ¬ (isAbsolute profilePath = true ∧ env.existsSync profilePath = true))
    (hws : ∀ folder ∈ env.workspaceFolders,
      env.existsSync (joinPath folder.path profilePath) = false) :
    (2 ≤ (findFilesByBasename env (basenameOf profilePath)).1.length →
        (resolveFilePath env profilePath).1 = none)
      ∧ (∀ single, (findFilesByBasename env (basenameOf profilePath)).1 = [single] →
        (resolveFilePath env profilePath).1 = some single)
      ∧ ((findFilesByBasename env (basenameOf profilePath)).1 = [] →
        (resolveFilePath env profilePath).1 = none) := by
  have key : (resolveFilePath env profilePath).1 =
      match (findFilesByBasename env (basenameOf profilePath)).1 with
      | [single] => some single
      | _ => none := by
    unfold resolveFilePath
    rcases hm : tryMappings env.existsSync profilePath env.pathMappings with ⟨o1, n1⟩
    have h1 := tryMappings_none env.existsSync profilePath env.pathMappings hmap
    rw [hm] at h1
    simp only at h1
    subst h1
    have hcond : (isAbsolute profilePath && env.existsSync profilePath) = false := by
      rcases ha : isAbsolute profilePath <;> rcases hb : env.existsSync profilePath <;>
        simp_all
    simp only [hm]
    rw [if_neg (by simp [hcond])]
    rcases hw : tryWorkspaceFolders env.existsSync profilePath env.workspaceFolders
      with ⟨o3, n3⟩
    have h3 := tryWorkspaceFolders_none env.existsSync profilePath env.workspaceFolders hws
    rw [hw] at h3
    simp only at h3
    subst h3
    simp only [hw]
    rcases hf : findFilesByBasename env (basenameOf profilePath) with ⟨found, n4⟩
    simp only [hf]
    cases found with
    | nil => rfl
    | cons a rest =>
      cases rest with
      | nil => rfl
      | cons b rest2 => rfl
  refine ⟨?_, ?_, ?_⟩
  · intro hlen
    rw [key]
    rcases hf : (findFilesByBasename env (basenameOf profilePath)).1 with _ | ⟨a, _ | ⟨b, rest2⟩⟩
    · rfl
    · rw [hf] at hlen
      simp at hlen
    · rfl
  · intro single hsingle
    rw [key, hsingle]
  · intro hnil
    rw [key, hnil]

def env4 : ResolverEnv :=
  { pathMappings := [],
    workspaceFolders := [{ path := "/w1", tree := [.file "x.go"] },
      { path := "/w2", tree := [.file "x.go"] }],
    existsSync := fun _ => false }

theorem basename_fallback_witness :
    2 ≤ (findFilesByBasename env4 (basenameOf "x.go")).1.length
      ∧ (resolveFilePath env4 "x.go").1 = none :=
  ⟨by decide,
    (basename_fallback_strictness env4 "x.go" (by decide) (by decide) (by decide)).1
      (by decide)⟩

/-! ### Decompression (`src/parser/decompressor.ts`)

Bytes are lists of `Nat`; the gzip codec itself (the `pako` library) is an
external collaborator, abstracted as an `ungzip` oracle that may fail. -/

/-- `decompressBuffer`: a two-byte magic check decides between decompressing
and returning the input unchanged; a codec failure is rethrown with a
wrapping message.  (`data[0] === 0x1f` on an out-of-range index compares
`undefined`, never equal; reading the missing byte as 0 models that, since
0 matches neither magic byte.) -/
def decompressBuffer (ungzip : List Nat → Except String (List Nat))
    (data : List Nat) : Except String (List Nat) :=
  if data.getD 0 0 = 0x1f ∧ data.getD 1 0 = 0x8b then
    match ungzip data with
    | .ok decompressed => .ok decompressed
    | .error e => .error ("Failed to decompress buffer: " ++ e)
  else .ok data

/-- C7: a buffer that does not begin with the gzip magic prefix is returned
unchanged, and consequently applying `decompressBuffer` to an
already-decompressed output that lacks the magic prefix is a no-op. -/
theorem decompressBuffer_non_magic_id (ungzip : List Nat → Except String (List Nat))
    (data out : List Nat) :
    (¬ (data.getD 0 0 = 0x1f ∧ data.getD 1 0 = 0x8b) →
        decompressBuffer ungzip data = .ok data)
      ∧ (decompressBuffer ungzip data = .ok out →
        ¬ (out.getD 0 0 = 0x1f ∧ out.getD 1 0 = 0x8b) →
        decompressBuffer ungzip out = .ok out) := by
  constructor
  · intro h
    unfold decompressBuffer
    rw [if_neg h]
  · intro _ h
    unfold decompressBuffer
    rw [if_neg h]

theorem decompressBuffer_witness :
    ¬ (([1, 2, 3] : List Nat).getD 0 0 = 0x1f ∧ ([1, 2, 3] : List Nat).getD 1 0 = 0x8b)
      ∧ decompressBuffer (fun _ => .ok []) [1, 2, 3] = .ok [1, 2, 3] :=
  ⟨by decide,
    (decompressBuffer_non_magic_id (fun _ => .ok []) [1, 2, 3] [1, 2, 3]).1 (by decide)⟩

/-! ### The load command's result reporting (`src/commands/loadProfile.ts`) -/

inductive LoadOutcome where
  | noFilesMatched
  | success (fileCount : Nat) (totalLines : Nat)
  | failure
deriving Repr, DecidableEq

/-- What the user-visible tail of the load command did: which message was
shown, whether the "Configure Path Mappings" guidance was offered, whether
the metrics were stored, and whether the command surfaced an error. -/
structure LoadReport where
  outcome : LoadOutcome
  pathMappingGuidance : Bool
  storedInProfileStore : Bool
  raisedError : Bool
deriving Repr, DecidableEq

def metricsFileCount (m : ProfileMetrics) : Nat := m.length

def metricsTotalLines (m : ProfileMetrics) : Nat := (m.map fun e => e.2.length).sum

/-- The `metrics` binding of `loadProfile.ts:64`: the command calls the
`async` `mapSamplesToSource` **without `await`**, so the value whose `size`
it checks is the pending promise, not the metrics map an awaited call
(as in the staged fetch-command variant) would produce. -/
inductive MetricsBinding where
  | promiseOf (result : ProfileMetrics)
  | awaited (result : ProfileMetrics)

/-- `metrics.size === 0` as the branch evaluates it: a promise has no `size`
property, so the strict comparison reads `undefined` and is false. -/
def sizeIsZero : MetricsBinding → Bool
  | .promiseOf _ => false
  | .awaited m => metricsFileCount m == 0

/-- The result-check-and-store tail of the load command (`loadProfile.ts`
lines 64-106) as staged.  On the un-awaited promise the
`metrics.size === 0` branch cannot be taken, and the else branch's
`metrics.forEach` throws, so control lands in the command's catch handler:
an error message, no path-mapping guidance, and `profileStore.loadProfile`
never runs.  Only on an awaited map does the branch behave as written:
empty map → warning plus "Configure Path Mappings" guidance, non-empty →
success message, and in either case the map is stored afterwards. -/
def loadProfileReport (metrics : MetricsBinding) : LoadReport :=
  if sizeIsZero metrics then
    { outcome := .noFilesMatched, pathMappingGuidance := true,
      storedInProfileStore := true, raisedError := false }
  else
    match metrics with
    | .promiseOf _ =>
      { outcome := .failure, pathMappingGuidance := false,
        storedInProfileStore := false, raisedError := true }
    | .awaited m =>
      { outcome := .success (metricsFileCount m) (metricsTotalLines m),
        pathMappingGuidance := false, storedInProfileStore := true,
        raisedError := false }

theorem processFrame_unresolved (resolve : String → Option String)
    (idx : SampleTypeIndices) (s : Sample) (m : ProfileMetrics) (fr : StackFrame)
    (h : fr.filename ≠ "" → fr.line ≠ 0 → resolve fr.filename = none) :
    processFrame resolve idx s m fr = m := by
  unfold processFrame
  by_cases hg : fr.filename = "" ∨ fr.line = 0
  · rw [if_pos hg]
  · rw [if_neg hg]
    push_neg at hg
    rw [h hg.1 hg.2]

theorem foldl_processFrame_unresolved (resolve : String → Option String)
    (idx : SampleTypeIndices) (s : Sample) (L : List StackFrame) (m : ProfileMetrics)
    (h : ∀ fr ∈ L, fr.filename ≠ "" → fr.line ≠ 0 → resolve fr.filename = none) :
    L.foldl (processFrame resolve idx s) m = m := by
  induction L generalizing m with
  | nil => rfl
  | cons fr rest ih =>
    rw [List.foldl_cons,
      processFrame_unresolved resolve idx s m fr (h fr (List.mem_cons_self fr rest))]
    exact ih m fun f hf => h f (List.mem_cons_of_mem _ hf)

theorem mapSamplesToSource_empty_of_unresolved (profile : ParsedProfile)
    (resolve : String → Option String)
    (h : ∀ s ∈ profile.samples, ∀ fr ∈ getStackTrace s profile,
      fr.filename ≠ "" → fr.line ≠ 0 → resolve fr.filename = none) :
    mapSamplesToSource profile resolve = [] := by
  have hacc : profile.samples.foldl
      (processSample profile resolve (findIndices profile)) [] = [] := by
    have key : ∀ S : List Sample, (∀ s ∈ S, ∀ fr ∈ getStackTrace s profile,
        fr.filename ≠ "" → fr.line ≠ 0 → resolve fr.filename = none) →
        S.foldl (processSample profile resolve (findIndices profile)) [] = [] := by
      intro S hS
      induction S with
      | nil => rfl
      | cons s rest ih =>
        rw [List.foldl_cons]
        unfold processSample
        rw [foldl_processFrame_unresolved resolve (findIndices profile) s
          (getStackTrace s profile) [] (hS s (List.mem_cons_self s rest))]
        exact ih fun s' hs' => hS s' (List.mem_cons_of_mem _ hs')
    exact key profile.samples h
  unfold mapSamplesToSource
  rw [hacc]
  rfl

/-- C8 (code bug): when no frame of the profile resolves,
`mapSamplesToSource` does return the empty metrics map, but the staged load
command never sees it — `loadProfile.ts:64` omits `await`, so the branch
checks a promise: the command lands in its catch handler with an error
surfaced, no path-mapping guidance, and nothing stored, contradicting the
claim.  The claimed distinct non-error outcome (guidance shown, empty result
stored) is exactly what the same branch produces once the result is awaited
— the branch's own code, the awaited staged fetch variant and the spec all
agree on that intent. -/
theorem no_files_matched_code_bug (profile : ParsedProfile)
    (resolve : String → Option String)
    (h : ∀ s ∈ profile.samples, ∀ fr ∈ getStackTrace s profile,
      fr.filename ≠ "" → fr.line ≠ 0 → resolve fr.filename = none) :
    mapSamplesToSource profile resolve = []
      ∧ loadProfileReport (.promiseOf (mapSamplesToSource profile resolve)) =
        { outcome := .failure, pathMappingGuidance := false,
          storedInProfileStore := false, raisedError := true }
      ∧ loadProfileReport (.awaited (mapSamplesToSource profile resolve)) =
        { outcome := .noFilesMatched, pathMappingGuidance := true,
          storedInProfileStore := true, raisedError := false } := by
  have hmap := mapSamplesToSource_empty_of_unresolved profile resolve h
  refine ⟨hmap, rfl, ?_⟩
  rw [hmap]
  rfl

theorem no_files_matched_code_bug_witness :
    (∀ s ∈ sampleProfile.samples, ∀ fr ∈ getStackTrace s sampleProfile,
        fr.filename ≠ "" → fr.line ≠ 0 → (fun _ => (none : Option String)) fr.filename = none)
      ∧ mapSamplesToSource sampleProfile (fun _ => none) = []
      ∧ loadProfileReport (.promiseOf (mapSamplesToSource sampleProfile (fun _ => none))) =
        { outcome := .failure, pathMappingGuidance := false,
          storedInProfileStore := false, raisedError := true }
      ∧ loadProfileReport (.awaited (mapSamplesToSource sampleProfile (fun _ => none))) =
        { outcome := .noFilesMatched, pathMappingGuidance := true,
          storedInProfileStore := true, raisedError := false } := by
  have h := no_files_matched_code_bug sampleProfile (fun _ => none)
    (by intro s _ fr _ _ _; rfl)
  exact ⟨by intro s _ fr _ _ _; rfl, h.1, h.2.1, h.2.2⟩

/-! ### Function-level aggregation -/

structure FunctionRange where
  name : String
  startLine : Nat
  endLine : Nat
deriving Repr, DecidableEq

structure FunctionAggregatorConfig where
  threshold : ℚ
  includeAnonymous : Bool
deriving Repr, DecidableEq

structure FunctionMetrics where
  name : String
  startLine : Nat
  endLine : Nat
  selfCpuPercent : ℚ
  selfMemoryPercent : ℚ
  selfMemoryBytes : ℚ
  selfCpuSamples : ℚ
  selfAllocations : ℚ
  cumulativeCpuPercent : ℚ
  cumulativeMemoryPercent : ℚ
  cumulativeMemoryBytes : ℚ
  cumulativeCpuSamples : ℚ
  cumulativeAllocations : ℚ
deriving Repr, DecidableEq

/-- The line-metrics records of the file whose line lies in the inclusive
function range. -/
def rangeLines (fm : FileMetrics) (r : FunctionRange) : List LineMetrics :=
  (fm.filter fun e => decide (r.startLine ≤ e.1) && decide (e.1 ≤ r.endLine)).map (·.2)

def selfCpuSumOf (fm : FileMetrics) (r : FunctionRange) : ℚ :=
  ((rangeLines fm r).map (·.selfCpuPercent)).sum

def selfMemSumOf (fm : FileMetrics) (r : FunctionRange) : ℚ :=
  ((rangeLines fm r).map (·.selfMemoryPercent)).sum

def cumCpuSumOf (fm : FileMetrics) (r : FunctionRange) : ℚ :=
  ((rangeLines fm r).map (·.cpuPercent)).sum

def cumMemSumOf (fm : FileMetrics) (r : FunctionRange) : ℚ :=
  ((rangeLines fm r).map (·.memoryPercent)).sum

/-- Modelled from the spec: the Function Aggregator source
(`functionMetricsAggregator.ts`) is not among the provided files — only the
plan document sketches it.  Per spec §4.5, one range aggregates by summing
every contained line's self and cumulative fields independently; a range
with no contributing lines is dropped entirely; an anonymous range is
dropped when `includeAnonymous` is off, otherwise labelled with a
placeholder; and the function is retained only if
`max(selfCpuPercent, selfMemPercent, cumulativeCpuPercent, cumulativeMemPercent)`
is at least the threshold. -/
def aggregateRange (fm : FileMetrics) (cfg : FunctionAggregatorConfig)
    (r : FunctionRange) : Option FunctionMetrics :=
  if rangeLines fm r = [] then none
  else if r.name = "" ∧ cfg.includeAnonymous = false then none
  else if cfg.threshold ≤
      max (max (selfCpuSumOf fm r) (selfMemSumOf fm r))
        (max (cumCpuSumOf fm r) (cumMemSumOf fm r)) then
    some { name := if r.name = "" then "(anonymous)" else r.name,
           startLine := r.startLine, endLine := r.endLine,
           selfCpuPercent := selfCpuSumOf fm r,
           selfMemoryPercent := selfMemSumOf fm r,
           selfMemoryBytes := ((rangeLines fm r).map (·.memoryBytes)).sum,
           selfCpuSamples := ((rangeLines fm r).map (·.cpuSamples)).sum,
           selfAllocations := ((rangeLines fm r).map (·.allocations)).sum,
           cumulativeCpuPercent := cumCpuSumOf fm r,
           cumulativeMemoryPercent := cumMemSumOf fm r,
           cumulativeMemoryBytes := ((rangeLines fm r).map (·.memoryBytes)).sum,
           cumulativeCpuSamples := ((rangeLines fm r).map (·.cpuSamples)).sum,
           cumulativeAllocations := ((rangeLines fm r).map (·.allocations)).sum }
  else none

/-- Modelled from the spec: the aggregator maps the externally supplied
ranges in order, keeping the retained ones. -/
def aggregateFunctions (fm : FileMetrics) (ranges : List FunctionRange)
    (cfg : FunctionAggregatorConfig) : List FunctionMetrics :=
  ranges.filterMap (aggregateRange fm cfg)

/-- C9: a range with contributing lines (and an admissible name) produces an
output entry exactly when the maximum of its four summed percent fields
reaches the threshold, and every produced entry is in the aggregator's
output list. -/
theorem function_threshold_filter (fm : FileMetrics) (ranges : List FunctionRange)
    (cfg : FunctionAggregatorConfig) (r : FunctionRange) (hr : r ∈ ranges)
    (hlines : rangeLines fm r ≠ [])
    (hname : ¬ (r.name = "" ∧ cfg.includeAnonymous = false)) :
    ((aggregateRange fm cfg r).isSome = true ↔
        cfg.threshold ≤ max (max (selfCpuSumOf fm r) (selfMemSumOf fm r))
          (max (cumCpuSumOf fm r) (cumMemSumOf fm r)))
      ∧ ∀ result, aggregateRange fm cfg r = some result →
        result ∈ aggregateFunctions fm ranges cfg := by
  constructor
  · unfold aggregateRange
    rw [if_neg hlines, if_neg hname]
    by_cases ht : cfg.threshold ≤
        max (max (selfCpuSumOf fm r) (selfMemSumOf fm r))
          (max (cumCpuSumOf fm r) (cumMemSumOf fm r))
    · rw [if_pos ht]
      simp [ht]
    · rw [if_neg ht]
      simp [ht]
  · intro result hres
    exact List.mem_filterMap.mpr ⟨r, hr, hres⟩

def scenarioLine : LineMetrics :=
  { filePath := "app.go", line := 3, cpuPercent := 2, cpuSamples := 0,
    memoryBytes := 0, memoryPercent := 0, allocations := 0,
    selfCpuPercent := 1/2, selfMemoryPercent := 0 }

def scenarioFm : FileMetrics := [(3, scenarioLine)]

def scenarioRange : FunctionRange := { name := "f", startLine := 1, endLine := 5 }

def cfgIncl : FunctionAggregatorConfig := { threshold := 1, includeAnonymous := true }

def cfgExcl : FunctionAggregatorConfig := { threshold := 3, includeAnonymous := true }

theorem function_threshold_witness :
    scenarioRange ∈ [scenarioRange]
      ∧ rangeLines scenarioFm scenarioRange ≠ []
      ∧ (aggregateRange scenarioFm cfgIncl scenarioRange).isSome = true
      ∧ (aggregateRange scenarioFm cfgExcl scenarioRange).isSome = false := by
  have hlines : rangeLines scenarioFm scenarioRange ≠ [] := by decide
  have hs1 : selfCpuSumOf scenarioFm scenarioRange = 1/2 := by
    simp [selfCpuSumOf, rangeLines, scenarioFm, scenarioRange, scenarioLine]
  have hs2 : selfMemSumOf scenarioFm scenarioRange = 0 := by
    simp [selfMemSumOf, rangeLines, scenarioFm, scenarioRange, scenarioLine]
  have hc1 : cumCpuSumOf scenarioFm scenarioRange = 2 := by
    simp [cumCpuSumOf, rangeLines, scenarioFm, scenarioRange, scenarioLine]
  have hc2 : cumMemSumOf scenarioFm scenarioRange = 0 := by
    simp [cumMemSumOf, rangeLines, scenarioFm, scenarioRange, scenarioLine]
  have hinc := function_threshold_filter scenarioFm [scenarioRange] cfgIncl scenarioRange
    (List.mem_singleton.mpr rfl) hlines (by simp [scenarioRange, cfgIncl])
  have hexc := function_threshold_filter scenarioFm [scenarioRange] cfgExcl scenarioRange
    (List.mem_singleton.mpr rfl) hlines (by simp [scenarioRange, cfgExcl])
  refine ⟨List.mem_singleton.mpr rfl, hlines, ?_, ?_⟩
  · apply hinc.1.mpr
    rw [hs1, hs2, hc1, hc2]
    show cfgIncl.threshold ≤ _
    rw [show cfgIncl.threshold = 1 from rfl]
    norm_num [max_def]
  · rw [Bool.eq_false_iff]
    intro hsome
    have := hexc.1.mp hsome
    rw [hs1, hs2, hc1, hc2] at this
    rw [show cfgExcl.threshold = 3 from rfl] at this
    norm_num [max_def] at this

/-! ### Metrics lookup in the profile store (`src/state/profileStore.ts`) -/

/-- `ProfileStore.normalizePath`: backslashes to slashes, then lowercased. -/
def normalizePath (filePath : String) : String :=
  String.mk ((filePath.toList.map fun c => if c = '\\' then '/' else c).map Char.toLower)

/-- `s.endsWith(suffix)`. -/
def strEndsWith (s suffix : String) : Bool :=
  charsPrefixOf suffix.toList.reverse s.toList.reverse

/-- `s.split('/').pop()`: the (possibly empty) part after the last slash. -/
def lastComponent (s : String) : String :=
  String.mk ((s.toList.reverse.takeWhile fun c => c != '/').reverse)

/-- `ProfileStore.pathsMatch`: normalized equality, suffix either way, or
equal non-empty basenames. -/
def pathsMatch (path1 path2 : String) : Bool :=
  let norm1 := normalizePath path1
  let norm2 := normalizePath path2
  if norm1 = norm2 then true
  else if strEndsWith norm1 norm2 || strEndsWith norm2 norm1 then true
  else
    let base1 := lastComponent norm1
    let base2 := lastComponent norm2
    base1 == base2 && base1 != ""

/-- `ProfileStore.getMetricsForFile`: `this.metrics` (None when no profile is
loaded), exact key first, then the first entry matching fuzzily in insertion
order. -/
def getMetricsForFile (metrics : Option ProfileMetrics) (filePath : String) :
    Option FileMetrics :=
  match metrics with
  | none => none
  | some m =>
    match assocLookup m filePath with
    | some fm => some fm
    | none => (m.find? fun e => pathsMatch e.1 filePath).map (·.2)

/-- C10: when the queried path is not an exact key, the lookup still does not
return null whenever any stored entry matches the query under the fuzzy
comparison — normalized equality, one path a suffix of the other, or equal
non-empty basenames — so a query can return the metrics of a different file
that merely shares its basename. -/
theorem fuzzy_lookup_not_none (m : ProfileMetrics) (q : String)
    (hexact : assocLookup m q = none)
    (hmatch : ∃ e ∈ m, normalizePath e.1 = normalizePath q
        ∨ strEndsWith (normalizePath e.1) (normalizePath q) = true
        ∨ strEndsWith (normalizePath q) (normalizePath e.1) = true
        ∨ (lastComponent (normalizePath e.1) = lastComponent (normalizePath q)
          ∧ lastComponent (normalizePath e.1) ≠ "")) :
    getMetricsForFile (some m) q ≠ none := by
  obtain ⟨e, he, hcond⟩ := hmatch
  have hpm : pathsMatch e.1 q = true := by
    unfold pathsMatch
    by_cases h1 : normalizePath e.1 = normalizePath q
    · rw [if_pos h1]
    · rw [if_neg h1]
      by_cases h2 : (strEndsWith (normalizePath e.1) (normalizePath q)
          || strEndsWith (normalizePath q) (normalizePath e.1)) = true
      · rw [if_pos h2]
      · rw [if_neg h2]
        rcases hcond with hc | hc | hc | hc
        · exact absurd hc h1
        · exact absurd (by simp [hc]) h2
        · exact absurd (by simp [hc]) h2
        · have hq : lastComponent (normalizePath q) ≠ "" := hc.1 ▸ hc.2
          simp [hc.1, hq]
  have hfind : (m.find? fun e => pathsMatch e.1 q).isSome := by
    rw [List.find?_isSome]
    exact ⟨e, he, hpm⟩
  simp only [getMetricsForFile, hexact]
  intro hnone
  rw [Option.map_eq_none'] at hnone
  rw [hnone] at hfind
  exact Bool.noConfusion hfind

def storeMetrics : ProfileMetrics := [("/a/foo.go", [(1, newLineMetrics "/a/foo.go" 1)])]

theorem fuzzy_lookup_witness :
    assocLookup storeMetrics "/b/foo.go" = none
      ∧ lastComponent (normalizePath "/a/foo.go") = lastComponent (normalizePath "/b/foo.go")
      ∧ getMetricsForFile (some storeMetrics) "/b/foo.go"
          = some [(1, newLineMetrics "/a/foo.go" 1)]
      ∧ getMetricsForFile (some storeMetrics) "/b/foo.go" ≠ none := by
  refine ⟨by decide, by decide, by decide, ?_⟩
  exact fuzzy_lookup_not_none storeMetrics "/b/foo.go" (by decide)
    ⟨("/a/foo.go", [(1, newLineMetrics "/a/foo.go" 1)]), by decide,
      Or.inr (Or.inr (Or.inr ⟨by decide, by decide⟩))⟩

end Pyroscope
